import Mathlib

/-!
Shallow embedding of the execution-provider dispatch layer of `ort`
(`src/execution_providers/mod.rs`).

The native engine (ONNX Runtime) is external to this layer, so foreign-call
outcomes are modelled as data carried by each value:
an `ExecutionProvider` trait object is observed by the dispatcher only through
`as_str()`, `supported_by_platform()` and the result of `register()`, so the
embedding `InnerProvider` records exactly these three observations.
`tracing` log statements are modelled as an ordered list of `LogEvent`s, and
the number of `register` invocations made by the dispatcher is recorded in
`attempted` so that fail-fast abortion is observable.
-/

namespace Ort

/-- An `ort` error as the dispatcher observes it: `Error::message()` is the
only operation `apply_execution_providers` performs on an error value. -/
structure OrtError where
  message : String
deriving DecidableEq, Repr

/-- One `tracing` log statement emitted by `apply_execution_providers`,
mirroring the five logging sites in its body (mod.rs lines 246-263):
`tracing::warn!("{e}")`, the `tracing::debug!` with the platform note, the
`tracing::error!` for other failures, `tracing::info!` on success, and the
final `tracing::warn!` CPU-fallback message. -/
inductive LogEvent where
  | warnFeature (msg : String)
  | debugFeature (msg : String) (id : String)
  | errorOther (id : String) (msg : String)
  | infoRegistered (id : String)
  | cpuFallback
deriving DecidableEq, Repr

deriving instance DecidableEq for Except

/-- Observations of a `dyn ExecutionProvider` trait object used by the
dispatch layer: `as_str()` (the identifier), `supported_by_platform()`, and
the outcome of `register(session_builder)`. The register outcome is a foreign
call into the native engine and is therefore modelled as per-instance data. -/
structure InnerProvider where
  identifier : String
  supported_by_platform : Bool
  registerResult : Except OrtError Unit
deriving DecidableEq, Repr

/-- Embedding of `ExecutionProviderDispatch` (mod.rs lines 137-140): the
boxed provider plus the `error_on_failure` failure-policy flag. -/
structure ExecutionProviderDispatch where
  inner : InnerProvider
  error_on_failure : Bool
deriving DecidableEq, Repr

/-- Embedding of `ExecutionProviderDispatch::new` (mod.rs lines 143-148):
wraps a provider with `error_on_failure: false`. -/
def ExecutionProviderDispatch.new (ep : InnerProvider) : ExecutionProviderDispatch :=
  { inner := ep, error_on_failure := false }

/-- Embedding of `ExecutionProviderDispatch::fail_silently` (mod.rs lines
152-155): sets `error_on_failure` to `false`, returns the rest unchanged. -/
def ExecutionProviderDispatch.fail_silently (d : ExecutionProviderDispatch) :
    ExecutionProviderDispatch :=
  { d with error_on_failure := false }

/-- Embedding of the builder method `ExecutionProviderDispatch::error_on_failure`
(mod.rs lines 160-163); named `set_error_on_failure` here because Lean does not
allow a method and a field of the same structure to share a name. Sets
`error_on_failure` to `true`, returns the rest unchanged. -/
def ExecutionProviderDispatch.set_error_on_failure (d : ExecutionProviderDispatch) :
    ExecutionProviderDispatch :=
  { d with error_on_failure := true }

/-- Whether a register outcome is a success (`Ok(())`). -/
def regOk : Except OrtError Unit → Bool
  | Except.ok _ => true
  | Except.error _ => false

/-- A dispatch entry is fatal when its `error_on_failure` flag is set and its
`register` call fails: exactly the condition of the early `return Err(e)` at
mod.rs lines 242-244. -/
def isFatal (ex : ExecutionProviderDispatch) : Bool :=
  ex.error_on_failure && !regOk ex.inner.registerResult

/-- The distinguished message suffix the dispatcher uses to recognise the
"feature not compiled in" error shape (mod.rs lines 246-248). -/
def featureNotEnabledSuffix : String :=
  "was not registered because its corresponding Cargo feature is not enabled."

/-- Rust's `str::ends_with`, as an executable test on the character lists of
the two strings. -/
def ends_with (s post : String) : Bool :=
  post.data.isSuffixOf s.data

/-- Aggregate outcome of one `apply_execution_providers` call: the returned
`Result<()>`, the ordered log statements emitted, and the number of
`register` calls made (one per loop iteration entered). -/
structure DispatchOutcome where
  result : Except OrtError Unit
  logs : List LogEvent
  attempted : Nat
deriving DecidableEq, Repr

/-- The `for ex in execution_providers` loop of `apply_execution_providers`
together with the trailing `if fallback_to_cpu` warning (mod.rs lines
240-265), as a recursion over the remaining instances carrying the
`fallback_to_cpu` flag. -/
def applyLoop : List ExecutionProviderDispatch → Bool → DispatchOutcome
  | [], fallback_to_cpu =>
    { result := Except.ok ()
      logs := if fallback_to_cpu then [LogEvent.cpuFallback] else []
      attempted := 0 }
  | ex :: rest, fallback_to_cpu =>
    match ex.inner.registerResult with
    | Except.error e =>
      if ex.error_on_failure then
        { result := Except.error e, logs := [], attempted := 1 }
      else
        let ev :=
          if ends_with e.message featureNotEnabledSuffix then
            if ex.inner.supported_by_platform then
              LogEvent.warnFeature e.message
            else
              LogEvent.debugFeature e.message ex.inner.identifier
          else
            LogEvent.errorOther ex.inner.identifier e.message
        let r := applyLoop rest fallback_to_cpu
        { result := r.result, logs := ev :: r.logs, attempted := r.attempted + 1 }
    | Except.ok _ =>
      let r := applyLoop rest false
      { result := r.result
        logs := LogEvent.infoRegistered ex.inner.identifier :: r.logs
        attempted := r.attempted + 1 }

/-- The seeding of the fallback flag, `let mut fallback_to_cpu =
!execution_providers.is_empty()` (mod.rs line 239). -/
def seedFallback (eps : List ExecutionProviderDispatch) : Bool :=
  !eps.isEmpty

/-- Embedding of `apply_execution_providers` (mod.rs lines 234-266). The
argument iterator is already materialised as a `List` (the Rust collects it
into a `Vec` first, line 238). -/
def apply_execution_providers (eps : List ExecutionProviderDispatch) : DispatchOutcome :=
  applyLoop eps (seedFallback eps)

/-- What the native `GetAvailableProviders` call produced when it succeeded:
whether the filled `providers` pointer is null (which the code tolerates even
when `num_providers` is non-zero), and, for each index `i` in
`0..num_providers`, the outcome of `char_p_to_string` on entry `i`
(extraction of a C string can fail per entry). `entries.length` plays the
role of `num_providers`. -/
structure ProbeResponse where
  providersNull : Bool
  entries : List (Except OrtError String)
deriving DecidableEq, Repr

/-- Outcome of one `is_available` call: the returned `Result<bool>` together
with the number of times `ReleaseAvailableProviders` was invoked. -/
structure AvailResult where
  result : Except OrtError Bool
  releases : Nat
deriving DecidableEq, Repr

/-- The `for i in 0..num_providers` loop of `is_available` (mod.rs lines
88-103): extract each entry in index order; on extraction failure release the
array and propagate the error; on a match with `self.as_str()` release and
return `Ok(true)`; after the loop release and return `Ok(false)`. -/
def availScan (id : String) : List (Except OrtError String) → AvailResult
  | [] => { result := Except.ok false, releases := 1 }
  | entry :: rest =>
    match entry with
    | Except.error e => { result := Except.error e, releases := 1 }
    | Except.ok avail =>
      if id == avail then { result := Except.ok true, releases := 1 }
      else availScan id rest

/-- Embedding of the default `ExecutionProvider::is_available` (mod.rs lines
80-104). `id` is `self.as_str()`; `fill` is the outcome of the native
`GetAvailableProviders` call (an `Err` there propagates through `?` with no
release; a null `providers` pointer returns `Ok(false)` with no release). -/
def is_available (id : String) (fill : Except OrtError ProbeResponse) : AvailResult :=
  match fill with
  | Except.error e => { result := Except.error e, releases := 0 }
  | Except.ok resp =>
    if resp.providersNull then { result := Except.ok false, releases := 0 }
    else availScan id resp.entries

/-- Association list of option entries backing `ExecutionProviderOptions`.
The Rust type is `HashMap<CString, CString>`; the embedding keeps the map as
a duplicate-key-free association list, with `HashMap::insert`'s
replace-existing-value semantics given by `insertKV`. -/
abbrev OptionEntries := List (String × String)

/-- `HashMap::insert` on the association-list model: replace the value of an
existing entry for the key, otherwise add a new entry. -/
def insertKV : OptionEntries → String → String → OptionEntries
  | [], k, v => [(k, v)]
  | (k', v') :: rest, k, v =>
    if k' == k then (k', v) :: rest
    else (k', v') :: insertKV rest k v

/-- Whether a string is free of interior nul characters, i.e. whether
`CString::new` on it succeeds rather than panicking through the `expect`
calls in `ExecutionProviderOptions::set` (mod.rs line 180). -/
def nulFree (s : String) : Bool :=
  !s.data.contains (Char.ofNat 0)

/-- Embedding of `ExecutionProviderOptions` (mod.rs line 175): the arbitrary
key/value configuration map of a provider instance. -/
structure ExecutionProviderOptions where
  entries : OptionEntries
deriving DecidableEq, Repr

/-- Embedding of `ExecutionProviderOptions::set` (mod.rs lines 178-181):
insert the pair into the map; the `CString::new(..).expect(..)` panic on an
interior nul in key or value is modelled as `none`. -/
def ExecutionProviderOptions.set (opts : ExecutionProviderOptions) (key value : String) :
    Option ExecutionProviderOptions :=
  if nulFree key && nulFree value then some { entries := insertKV opts.entries key value }
  else none

/-- Embedding of `ExecutionProviderOptions::to_ffi` (mod.rs lines 184-187):
unzip the map's entries into the parallel key-pointer and value-pointer
vectors of `ExecutionProviderOptionsFFI`. -/
def ExecutionProviderOptions.to_ffi (opts : ExecutionProviderOptions) :
    List String × List String :=
  (opts.entries.map Prod.fst, opts.entries.map Prod.snd)

/-- A register outcome is not a success exactly when it is not `Ok(())`. -/
theorem regOk_eq_false_iff (r : Except OrtError Unit) :
    regOk r = false ↔ r ≠ Except.ok () := by
  cases r with
  | ok u => cases u; simp [regOk]
  | error e => simp [regOk]

/-- When no instance in the remaining list is fatal, the loop completes with
`Ok(())` and invokes `register` on every instance. -/
theorem applyLoop_no_fatal (l : List ExecutionProviderDispatch) : ∀ fb : Bool,
    (∀ ex ∈ l, isFatal ex = false) →
    (applyLoop l fb).result = Except.ok () ∧ (applyLoop l fb).attempted = l.length := by
  induction l with
  | nil => intro fb _; simp [applyLoop]
  | cons ex rest ih =>
    intro fb h
    have hex : isFatal ex = false := h ex (List.mem_cons_self ex rest)
    have hrest : ∀ p ∈ rest, isFatal p = false := fun p hp => h p (List.mem_cons_of_mem ex hp)
    cases hr : ex.inner.registerResult with
    | ok u =>
      have := ih false hrest
      simp only [applyLoop, hr]
      simpa using this
    | error e =>
      have hflag : ex.error_on_failure = false := by
        simpa [isFatal, hr, regOk] using hex
      have := ih fb hrest
      simp only [applyLoop, hr, hflag]
      simpa using this

/-- Fail-fast: the first fatal instance's error is returned and no later
instance's `register` is invoked. -/
theorem applyLoop_fail_fast (ex : ExecutionProviderDispatch)
    (rest : List ExecutionProviderDispatch) (e : OrtError)
    (pre : List ExecutionProviderDispatch) : ∀ fb : Bool,
    (∀ p ∈ pre, isFatal p = false) →
    ex.error_on_failure = true → ex.inner.registerResult = Except.error e →
    (applyLoop (pre ++ ex :: rest) fb).result = Except.error e ∧
    (applyLoop (pre ++ ex :: rest) fb).attempted = pre.length + 1 := by
  induction pre with
  | nil =>
    intro fb _ hflag hr
    simp [applyLoop, hr, hflag]
  | cons p ps ih =>
    intro fb h hflag hr
    have hp : isFatal p = false := h p (List.mem_cons_self p ps)
    have hps : ∀ q ∈ ps, isFatal q = false := fun q hq => h q (List.mem_cons_of_mem p hq)
    cases hpr : p.inner.registerResult with
    | ok u =>
      have := ih false hps hflag hr
      simp only [List.cons_append, applyLoop, hpr]
      simpa [Nat.succ_eq_add_one, Nat.add_comm] using this
    | error pe =>
      have hpflag : p.error_on_failure = false := by
        simpa [isFatal, hpr, regOk] using hp
      have := ih fb hps hflag hr
      simp only [List.cons_append, applyLoop, hpr, hpflag]
      simpa [Nat.succ_eq_add_one, Nat.add_comm] using this

/-- The CPU-fallback warning is logged exactly once when the incoming
fallback flag is set, the loop completes successfully, and no instance's
`register` succeeds; otherwise it is not logged at all. -/
theorem applyLoop_count_cpuFallback (l : List ExecutionProviderDispatch) : ∀ fb : Bool,
    (applyLoop l fb).logs.count LogEvent.cpuFallback =
      if fb && regOk (applyLoop l fb).result &&
          !(l.any fun ex => regOk ex.inner.registerResult) then 1 else 0 := by
  induction l with
  | nil => intro fb; cases fb <;> simp [applyLoop, regOk]
  | cons ex rest ih =>
    intro fb
    cases hr : ex.inner.registerResult with
    | ok u =>
      have := ih false
      simp only [applyLoop, hr, List.any_cons]
      simpa [List.count_cons, regOk, hr] using this
    | error e =>
      cases hflag : ex.error_on_failure with
      | true => simp [applyLoop, hr, hflag, regOk]
      | false =>
        have := ih fb
        simp only [applyLoop, hr, hflag, List.any_cons]
        by_cases h1 : ends_with e.message featureNotEnabledSuffix = true <;>
          by_cases h2 : ex.inner.supported_by_platform = true <;>
            simpa [List.count_cons, regOk, h1, h2] using this

/-- C1: `apply_execution_providers` returns an error iff some instance with
`error_on_failure = true` fails its `register` call; the returned error is
that of the first such instance, whose position bounds the number of
`register` invocations (no later instance is attempted); with no such
instance, whatever the other instances do, the dispatcher returns success
after attempting every instance. -/
theorem apply_execution_providers_fail_fast (eps : List ExecutionProviderDispatch) :
    ((∀ ex ∈ eps, isFatal ex = false) →
      (apply_execution_providers eps).result = Except.ok () ∧
      (apply_execution_providers eps).attempted = eps.length) ∧
    ((apply_execution_providers eps).result ≠ Except.ok () →
      ∃ ex ∈ eps, isFatal ex = true) ∧
    (∀ pre ex rest e, eps = pre ++ ex :: rest →
      (∀ p ∈ pre, isFatal p = false) →
      ex.error_on_failure = true → ex.inner.registerResult = Except.error e →
      (apply_execution_providers eps).result = Except.error e ∧
      (apply_execution_providers eps).attempted = pre.length + 1) := by
  refine ⟨fun h => applyLoop_no_fatal eps _ h, ?_, ?_⟩
  · intro hne
    by_contra hc
    push_neg at hc
    have hall : ∀ ex ∈ eps, isFatal ex = false := by
      intro ex hex
      have := hc ex hex
      simpa [Bool.not_eq_true] using this
    exact hne (applyLoop_no_fatal eps _ hall).1
  · intro pre ex rest e heq hpre hflag hr
    subst heq
    exact applyLoop_fail_fast ex rest e pre _ hpre hflag hr

/-- Witness for C1 at concrete inputs: a sequence where everything fails
silently succeeds with all three instances attempted, and a sequence whose
second instance is fatal returns that instance's error after exactly two
`register` calls. -/
theorem apply_execution_providers_fail_fast_witness :
    ((apply_execution_providers
      [⟨⟨"ACLExecutionProvider", true, Except.error ⟨"acl down"⟩⟩, false⟩,
       ⟨⟨"TvmExecutionProvider", true, Except.ok ()⟩, false⟩]).result = Except.ok () ∧
     (apply_execution_providers
      [⟨⟨"ACLExecutionProvider", true, Except.error ⟨"acl down"⟩⟩, false⟩,
       ⟨⟨"TvmExecutionProvider", true, Except.ok ()⟩, false⟩]).attempted = 2) ∧
    (∃ ex ∈ [⟨⟨"CUDAExecutionProvider", true, Except.error ⟨"boom"⟩⟩, true⟩,
             ⟨⟨"TvmExecutionProvider", true, Except.ok ()⟩, false⟩],
       isFatal ex = true) ∧
    ((apply_execution_providers
      [⟨⟨"ACLExecutionProvider", true, Except.error ⟨"acl down"⟩⟩, false⟩,
       ⟨⟨"CUDAExecutionProvider", true, Except.error ⟨"boom"⟩⟩, true⟩,
       ⟨⟨"TvmExecutionProvider", true, Except.ok ()⟩, false⟩]).result =
        Except.error ⟨"boom"⟩ ∧
     (apply_execution_providers
      [⟨⟨"ACLExecutionProvider", true, Except.error ⟨"acl down"⟩⟩, false⟩,
       ⟨⟨"CUDAExecutionProvider", true, Except.error ⟨"boom"⟩⟩, true⟩,
       ⟨⟨"TvmExecutionProvider", true, Except.ok ()⟩, false⟩]).attempted = 2) :=
  ⟨(apply_execution_providers_fail_fast
      [⟨⟨"ACLExecutionProvider", true, Except.error ⟨"acl down"⟩⟩, false⟩,
       ⟨⟨"TvmExecutionProvider", true, Except.ok ()⟩, false⟩]).1 (by decide),
   (apply_execution_providers_fail_fast
      [⟨⟨"CUDAExecutionProvider", true, Except.error ⟨"boom"⟩⟩, true⟩,
       ⟨⟨"TvmExecutionProvider", true, Except.ok ()⟩, false⟩]).2.1 (by decide),
   (apply_execution_providers_fail_fast
      [⟨⟨"ACLExecutionProvider", true, Except.error ⟨"acl down"⟩⟩, false⟩,
       ⟨⟨"CUDAExecutionProvider", true, Except.error ⟨"boom"⟩⟩, true⟩,
       ⟨⟨"TvmExecutionProvider", true, Except.ok ()⟩, false⟩]).2.2
      [⟨⟨"ACLExecutionProvider", true, Except.error ⟨"acl down"⟩⟩, false⟩]
      ⟨⟨"CUDAExecutionProvider", true, Except.error ⟨"boom"⟩⟩, true⟩
      [⟨⟨"TvmExecutionProvider", true, Except.ok ()⟩, false⟩]
      ⟨"boom"⟩ rfl (by decide) rfl rfl⟩

/-- C2 as stated is false: with the sequence consisting of a single failing
instance whose `error_on_failure` flag is set, no instance registers
successfully, yet the dispatcher aborts before the fallback check and logs no
CPU-fallback warning. -/
theorem cpu_fallback_iff_no_success_counterexample :
    ¬ (((apply_execution_providers
          [⟨⟨"CUDAExecutionProvider", true, Except.error ⟨"boom"⟩⟩, true⟩]).logs.count
            LogEvent.cpuFallback = 1) ↔
        ∀ ex ∈ [(⟨⟨"CUDAExecutionProvider", true, Except.error ⟨"boom"⟩⟩, true⟩ :
            ExecutionProviderDispatch)],
          ex.inner.registerResult ≠ Except.ok ()) := by
  decide

/-- C2 amended: the CPU-fallback warning is logged exactly once iff the
sequence is non-empty, the dispatcher returns success (so no fail-fast abort
occurred), and no instance's `register` call succeeded; it is never logged
more than once. -/
theorem cpu_fallback_iff_no_success (eps : List ExecutionProviderDispatch) :
    (apply_execution_providers eps).logs.count LogEvent.cpuFallback ≤ 1 ∧
    ((apply_execution_providers eps).logs.count LogEvent.cpuFallback = 1 ↔
      (eps ≠ [] ∧ (apply_execution_providers eps).result = Except.ok () ∧
        ∀ ex ∈ eps, ex.inner.registerResult ≠ Except.ok ())) := by
  have hc := applyLoop_count_cpuFallback eps (seedFallback eps)
  rw [apply_execution_providers] at *
  constructor
  · rw [hc]; split <;> simp
  · rw [hc]
    constructor
    · intro h1
      split at h1
      case isTrue hcond =>
        simp only [Bool.and_eq_true, Bool.not_eq_true] at hcond
        obtain ⟨⟨hfb, hok⟩, hany⟩ := hcond
        refine ⟨?_, ?_, ?_⟩
        · intro he
          rw [he] at hfb
          simp [seedFallback] at hfb
        · cases hres : (applyLoop eps (seedFallback eps)).result with
          | ok u => cases u; rfl
          | error e => rw [hres] at hok; simp [regOk] at hok
        · intro ex hex
          rw [← regOk_eq_false_iff]
          have := List.any_eq_false.mp (by simpa using hany) ex hex
          simpa using this
      case isFalse => omega
    · rintro ⟨hne, hok, hfail⟩
      have hfb : seedFallback eps = true := by
        cases eps with
        | nil => exact absurd rfl hne
        | cons a l => simp [seedFallback]
      have hany : (eps.any fun ex => regOk ex.inner.registerResult) = false := by
        rw [List.any_eq_false]
        intro ex hex
        have := (regOk_eq_false_iff ex.inner.registerResult).mpr (hfail ex hex)
        simp [this]
      have hok2 : regOk (applyLoop eps (seedFallback eps)).result = true := by
        rw [hok]; rfl
      rw [hany, hok2, hfb]
      simp

/-- C3: on the empty sequence the dispatcher returns success, makes no
`register` call and logs nothing (in particular no CPU-fallback warning);
and the fallback flag is seeded `true` exactly for non-empty sequences. -/
theorem apply_execution_providers_empty (eps : List ExecutionProviderDispatch) :
    (apply_execution_providers []).result = Except.ok () ∧
    (apply_execution_providers []).logs = [] ∧
    (apply_execution_providers []).attempted = 0 ∧
    (seedFallback eps = true ↔ eps ≠ []) := by
  refine ⟨rfl, rfl, rfl, ?_⟩
  cases eps <;> simp [seedFallback]

/-- C4: whenever the first instance of the sequence registers successfully,
no CPU-fallback warning is logged, whatever the later instances do. -/
theorem first_success_no_cpu_fallback (ex : ExecutionProviderDispatch)
    (rest : List ExecutionProviderDispatch)
    (h : ex.inner.registerResult = Except.ok ()) :
    LogEvent.cpuFallback ∉ (apply_execution_providers (ex :: rest)).logs := by
  have hc := applyLoop_count_cpuFallback (ex :: rest) (seedFallback (ex :: rest))
  rw [← List.count_eq_zero]
  rw [apply_execution_providers, hc]
  have : ((ex :: rest).any fun p => regOk p.inner.registerResult) = true := by
    simp [List.any_cons, h, regOk]
  rw [this]
  simp

/-- C5: when an instance without `error_on_failure` fails, the dispatcher
logs exactly one classified event for it — the warning-level event for the
"feature not compiled in" message shape when `supported_by_platform()` holds,
the debug-level event (message plus identifier) for that shape otherwise, and
the error-level event with identifier and message for any other failure —
then continues with the remaining instances, whose result, logs and
`register`-call count are unchanged. -/
theorem nonfatal_failure_classified (ex : ExecutionProviderDispatch)
    (rest : List ExecutionProviderDispatch) (fb : Bool) (e : OrtError)
    (hr : ex.inner.registerResult = Except.error e)
    (hflag : ex.error_on_failure = false) :
    applyLoop (ex :: rest) fb =
      { result := (applyLoop rest fb).result
        logs :=
          (if ends_with e.message featureNotEnabledSuffix then
            if ex.inner.supported_by_platform then
              LogEvent.warnFeature e.message
            else
              LogEvent.debugFeature e.message ex.inner.identifier
          else
            LogEvent.errorOther ex.inner.identifier e.message) :: (applyLoop rest fb).logs
        attempted := (applyLoop rest fb).attempted + 1 } := by
  simp [applyLoop, hr, hflag]

/-- Witness for C5: all three classification branches at concrete instances —
the not-compiled-in shape on a supported platform logs the warning event, the
same shape on an unsupported platform logs the debug event, and a different
message logs the error event while iteration reaches the next instance. -/
theorem nonfatal_failure_classified_witness :
    applyLoop [⟨⟨"DnnlExecutionProvider", true, Except.error
        ⟨"DnnlExecutionProvider was not registered because its corresponding Cargo feature is not enabled."⟩⟩,
      false⟩] true =
      { result := Except.ok ()
        logs := [LogEvent.warnFeature
            "DnnlExecutionProvider was not registered because its corresponding Cargo feature is not enabled.",
          LogEvent.cpuFallback]
        attempted := 1 } ∧
    applyLoop [⟨⟨"CoreMLExecutionProvider", false, Except.error
        ⟨"CoreMLExecutionProvider was not registered because its corresponding Cargo feature is not enabled."⟩⟩,
      false⟩] true =
      { result := Except.ok ()
        logs := [LogEvent.debugFeature
            "CoreMLExecutionProvider was not registered because its corresponding Cargo feature is not enabled."
            "CoreMLExecutionProvider",
          LogEvent.cpuFallback]
        attempted := 1 } ∧
    applyLoop [⟨⟨"CUDAExecutionProvider", true, Except.error ⟨"bad device id"⟩⟩, false⟩,
        ⟨⟨"TvmExecutionProvider", true, Except.ok ()⟩, false⟩] true =
      { result := Except.ok ()
        logs := [LogEvent.errorOther "CUDAExecutionProvider" "bad device id",
          LogEvent.infoRegistered "TvmExecutionProvider"]
        attempted := 2 } := by
  refine ⟨?_, ?_, ?_⟩
  · have h := nonfatal_failure_classified
      ⟨⟨"DnnlExecutionProvider", true, Except.error
        ⟨"DnnlExecutionProvider was not registered because its corresponding Cargo feature is not enabled."⟩⟩,
        false⟩ [] true
      ⟨"DnnlExecutionProvider was not registered because its corresponding Cargo feature is not enabled."⟩
      rfl rfl
    rw [h]; decide
  · have h := nonfatal_failure_classified
      ⟨⟨"CoreMLExecutionProvider", false, Except.error
        ⟨"CoreMLExecutionProvider was not registered because its corresponding Cargo feature is not enabled."⟩⟩,
        false⟩ [] true
      ⟨"CoreMLExecutionProvider was not registered because its corresponding Cargo feature is not enabled."⟩
      rfl rfl
    rw [h]; decide
  · have h := nonfatal_failure_classified
      ⟨⟨"CUDAExecutionProvider", true, Except.error ⟨"bad device id"⟩⟩, false⟩
      [⟨⟨"TvmExecutionProvider", true, Except.ok ()⟩, false⟩] true
      ⟨"bad device id"⟩ rfl rfl
    rw [h]; decide

/-- Witness for C4: first instance succeeds, the two later instances fail
(one of them fatally never being reached does not matter for the fallback
warning); the warning is absent. -/
theorem first_success_no_cpu_fallback_witness :
    LogEvent.cpuFallback ∉ (apply_execution_providers
      [⟨⟨"TvmExecutionProvider", true, Except.ok ()⟩, false⟩,
       ⟨⟨"ACLExecutionProvider", true, Except.error ⟨"acl down"⟩⟩, false⟩]).logs :=
  first_success_no_cpu_fallback ⟨⟨"TvmExecutionProvider", true, Except.ok ()⟩, false⟩
    [⟨⟨"ACLExecutionProvider", true, Except.error ⟨"acl down"⟩⟩, false⟩] rfl

/-- The provider-array scan releases the native array exactly once on every
one of its exit paths. -/
theorem availScan_releases (id : String) (entries : List (Except OrtError String)) :
    (availScan id entries).releases = 1 := by
  induction entries with
  | nil => rfl
  | cons entry rest ih =>
    cases entry with
    | error e => rfl
    | ok avail =>
      by_cases h : (id == avail) = true
      · simp [availScan, h]
      · simp [availScan, h, ih]

/-- When the provider-array scan propagates an extraction error, the entries
split into a prefix of successfully extracted non-matching identifiers
followed by the failing entry. -/
theorem availScan_error_split (id : String) :
    ∀ (entries : List (Except OrtError String)) (e : OrtError),
    (availScan id entries).result = Except.error e →
    ∃ pre rest, entries = pre ++ Except.error e :: rest ∧
      ∀ s ∈ pre, ∃ v, s = Except.ok v ∧ (id == v) = false := by
  intro entries
  induction entries with
  | nil => intro e h; simp [availScan] at h
  | cons entry rest ih =>
    intro e h
    cases entry with
    | error e2 =>
      have he : e2 = e := by simpa [availScan] using h
      subst he
      exact ⟨[], rest, rfl, by simp⟩
    | ok avail =>
      by_cases hm : (id == avail) = true
      · rw [availScan] at h; simp [hm] at h
      · have h2 : (availScan id rest).result = Except.error e := by
          simpa [availScan, hm] using h
        obtain ⟨pre, rest2, heq, hpre⟩ := ih e h2
        refine ⟨Except.ok avail :: pre, rest2, by simp [heq], ?_⟩
        intro s hs
        rcases List.mem_cons.mp hs with h1 | h1
        · exact ⟨avail, by rw [h1], by simpa using hm⟩
        · exact hpre s h1

/-- C6: a successful native query whose provider-array pointer is null yields
`Ok(false)`, not an error, whatever `num_providers` reported; and an `Err`
result arises only when the engine-level query itself failed or the string
extraction of some entry failed with every earlier entry extracting
successfully and not matching the identifier. -/
theorem is_available_null_and_error_cases (id : String) :
    (∀ resp : ProbeResponse, resp.providersNull = true →
      (is_available id (Except.ok resp)).result = Except.ok false) ∧
    (∀ (fill : Except OrtError ProbeResponse) (e : OrtError),
      (is_available id fill).result = Except.error e →
      fill = Except.error e ∨
        ∃ resp pre rest, fill = Except.ok resp ∧ resp.providersNull = false ∧
          resp.entries = pre ++ Except.error e :: rest ∧
          ∀ s ∈ pre, ∃ v, s = Except.ok v ∧ (id == v) = false) := by
  constructor
  · intro resp h
    simp [is_available, h]
  · intro fill e h
    cases fill with
    | error e2 =>
      left
      have : e2 = e := by simpa [is_available] using h
      rw [this]
    | ok resp =>
      right
      cases hn : resp.providersNull with
      | true => rw [is_available] at h; simp [hn] at h
      | false =>
        have h2 : (availScan id resp.entries).result = Except.error e := by
          simpa [is_available, hn] using h
        obtain ⟨pre, rest, heq, hpre⟩ := availScan_error_split id resp.entries e h2
        exact ⟨resp, pre, rest, rfl, hn, heq, hpre⟩

/-- Witness for C6: a null provider array reported together with two entries
still yields `Ok(false)`, and an engine-level failure propagates as the
returned error. -/
theorem is_available_null_and_error_cases_witness :
    (is_available "CUDAExecutionProvider"
      (Except.ok ⟨true, [Except.ok "CPUExecutionProvider",
        Except.ok "CUDAExecutionProvider"]⟩)).result = Except.ok false ∧
    ((Except.error ⟨"engine failure"⟩ :
        Except OrtError ProbeResponse) = Except.error ⟨"engine failure"⟩ ∨
      ∃ resp pre rest,
        (Except.error ⟨"engine failure"⟩ : Except OrtError ProbeResponse) =
          Except.ok resp ∧ resp.providersNull = false ∧
        resp.entries = pre ++ Except.error ⟨"engine failure"⟩ :: rest ∧
        ∀ s ∈ pre, ∃ v, s = Except.ok v ∧ ("CUDAExecutionProvider" == v) = false) :=
  ⟨(is_available_null_and_error_cases "CUDAExecutionProvider").1
      ⟨true, [Except.ok "CPUExecutionProvider", Except.ok "CUDAExecutionProvider"]⟩ rfl,
   (is_available_null_and_error_cases "CUDAExecutionProvider").2
      (Except.error ⟨"engine failure"⟩) ⟨"engine failure"⟩ rfl⟩

/-- C7: whenever the native fill call succeeds with a non-null array pointer,
`ReleaseAvailableProviders` is invoked exactly once before `is_available`
returns, on every exit path. -/
theorem is_available_release_once (id : String) (resp : ProbeResponse)
    (h : resp.providersNull = false) :
    (is_available id (Except.ok resp)).releases = 1 := by
  simp [is_available, h, availScan_releases]

/-- Witness for C7: the release fires exactly once even when string
extraction fails partway through iteration. -/
theorem is_available_release_once_witness :
    (is_available "CUDAExecutionProvider"
      (Except.ok ⟨false, [Except.ok "CPUExecutionProvider",
        Except.error ⟨"invalid utf-8"⟩, Except.ok "CUDAExecutionProvider"]⟩)).releases = 1 :=
  is_available_release_once "CUDAExecutionProvider"
    ⟨false, [Except.ok "CPUExecutionProvider",
      Except.error ⟨"invalid utf-8"⟩, Except.ok "CUDAExecutionProvider"]⟩ rfl

/-- The scan returns `Ok(true)` as soon as it reaches an entry equal to the
identifier, for any suffix of later entries. -/
theorem availScan_first_match (id : String) :
    ∀ (pre rest : List (Except OrtError String)),
    (∀ s ∈ pre, ∃ v, s = Except.ok v) →
    availScan id (pre ++ Except.ok id :: rest) =
      { result := Except.ok true, releases := 1 } := by
  intro pre
  induction pre with
  | nil =>
    intro rest _
    simp [availScan]
  | cons s ps ih =>
    intro rest h
    obtain ⟨v, hv⟩ := h s (List.mem_cons_self s ps)
    subst hv
    by_cases hm : (id == v) = true
    · simp [availScan, hm]
    · simp only [List.cons_append, availScan, hm, if_false, Bool.false_eq_true]
      exact ih rest (fun q hq => h q (List.mem_cons_of_mem _ hq))

/-- C10: if every entry before some entry equal to the identifier extracts
successfully, `is_available` returns `Ok(true)` (with the single release),
regardless of the later entries — in particular even when a later entry's
string extraction would fail. -/
theorem is_available_first_match (id : String) (pre rest : List (Except OrtError String))
    (hpre : ∀ s ∈ pre, ∃ v, s = Except.ok v) :
    is_available id (Except.ok ⟨false, pre ++ Except.ok id :: rest⟩) =
      { result := Except.ok true, releases := 1 } := by
  have := availScan_first_match id pre rest hpre
  simpa [is_available] using this

/-- Witness for C10: the identifier sits after one successfully extracted
entry and before an entry whose extraction would fail; the result is still
`Ok(true)`. -/
theorem is_available_first_match_witness :
    is_available "CUDAExecutionProvider"
      (Except.ok ⟨false, [Except.ok "CPUExecutionProvider",
        Except.ok "CUDAExecutionProvider", Except.error ⟨"invalid utf-8"⟩]⟩) =
      { result := Except.ok true, releases := 1 } :=
  is_available_first_match "CUDAExecutionProvider" [Except.ok "CPUExecutionProvider"]
    [Except.error ⟨"invalid utf-8"⟩]
    (by intro s hs; rw [List.mem_singleton] at hs; exact ⟨"CPUExecutionProvider", hs⟩)

/-- Every key present after an insert was either already present or is the
inserted key. -/
theorem mem_keys_insertKV (k v : String) :
    ∀ (l : OptionEntries) (x : String),
    x ∈ (insertKV l k v).map Prod.fst → x ∈ l.map Prod.fst ∨ x = k := by
  intro l
  induction l with
  | nil =>
    intro x hx
    simp [insertKV] at hx
    right; exact hx
  | cons p rest ih =>
    intro x hx
    obtain ⟨k1, v1⟩ := p
    by_cases h : (k1 == k) = true
    · simp only [insertKV, h, if_true, List.map_cons, List.mem_cons] at hx
      rcases hx with h1 | h1
      · left; simp [h1]
      · left; simp only [List.map_cons, List.mem_cons]; right; exact h1
    · simp only [insertKV, h, if_false, Bool.false_eq_true, List.map_cons,
        List.mem_cons] at hx
      rcases hx with h1 | h1
      · left; simp [h1]
      · rcases ih x h1 with h2 | h2
        · left; simp only [List.map_cons, List.mem_cons]; right; exact h2
        · right; exact h2

/-- Inserting preserves the no-duplicate-keys invariant of the map. -/
theorem nodup_keys_insertKV (k v : String) :
    ∀ l : OptionEntries, (l.map Prod.fst).Nodup →
      ((insertKV l k v).map Prod.fst).Nodup := by
  intro l
  induction l with
  | nil => intro _; simp [insertKV]
  | cons p rest ih =>
    intro h
    obtain ⟨k1, v1⟩ := p
    simp only [List.map_cons, List.nodup_cons] at h
    obtain ⟨hk1, hrest⟩ := h
    by_cases hm : (k1 == k) = true
    · simp only [insertKV, hm, if_true, List.map_cons, List.nodup_cons]
      exact ⟨hk1, hrest⟩
    · simp only [insertKV, hm, if_false, Bool.false_eq_true, List.map_cons,
        List.nodup_cons]
      refine ⟨?_, ih hrest⟩
      intro hx
      rcases mem_keys_insertKV k v rest k1 hx with h2 | h2
      · exact hk1 h2
      · rw [h2] at hm
        simp at hm

/-- On a duplicate-free map, the entries whose key equals the inserted key
are exactly the single inserted pair. -/
theorem filter_insertKV (k v : String) :
    ∀ l : OptionEntries, (l.map Prod.fst).Nodup →
      (insertKV l k v).filter (fun p => p.1 == k) = [(k, v)] := by
  intro l
  induction l with
  | nil => simp [insertKV]
  | cons p rest ih =>
    intro h
    obtain ⟨k1, v1⟩ := p
    simp only [List.map_cons, List.nodup_cons] at h
    obtain ⟨hk1, hrest⟩ := h
    by_cases hm : (k1 == k) = true
    · have hkk : k1 = k := eq_of_beq hm
      subst hkk
      have hnil : rest.filter (fun p => p.1 == k1) = [] := by
        rw [List.filter_eq_nil_iff]
        intro p hp hpk
        exact hk1 (by
          have hp1 : p.1 = k1 := eq_of_beq (by simpa using hpk)
          rw [← hp1]
          exact List.mem_map_of_mem Prod.fst hp)
      simp [insertKV, hm, List.filter_cons, hnil]
    · simp only [insertKV, hm, if_false, Bool.false_eq_true, List.filter_cons]
      exact ih hrest

/-- C8: on any option bag with duplicate-free keys, `set(k, v)` followed by
`set(k, v2)` (both succeeding, their strings nul-free) leaves exactly one
entry for `k`, carrying `v2`, and the key sequence of the foreign view
produced by `to_ffi` has no duplicates. -/
theorem options_set_last_write_wins (opts : ExecutionProviderOptions) (k v v2 : String)
    (hnd : (opts.entries.map Prod.fst).Nodup)
    (hk : nulFree k = true) (hv : nulFree v = true) (hv2 : nulFree v2 = true) :
    ∃ opts2 : ExecutionProviderOptions,
      (opts.set k v).bind (fun o => o.set k v2) = some opts2 ∧
      opts2.entries.filter (fun p => p.1 == k) = [(k, v2)] ∧
      opts2.to_ffi.1.Nodup := by
  refine ⟨⟨insertKV (insertKV opts.entries k v) k v2⟩, ?_, ?_, ?_⟩
  · simp [ExecutionProviderOptions.set, hk, hv, hv2]
  · exact filter_insertKV k v2 _ (nodup_keys_insertKV k v _ hnd)
  · have := nodup_keys_insertKV k v2 _ (nodup_keys_insertKV k v _ hnd)
    simpa [ExecutionProviderOptions.to_ffi] using this

/-- Witness for C8: a bag holding one other entry, with `device_id` set to
"0" and then to "1". -/
theorem options_set_last_write_wins_witness :
    ∃ opts2 : ExecutionProviderOptions,
      ((⟨[("arena_extend_strategy", "kNextPowerOfTwo")]⟩ :
          ExecutionProviderOptions).set "device_id" "0").bind
        (fun o => o.set "device_id" "1") = some opts2 ∧
      opts2.entries.filter (fun p => p.1 == "device_id") = [("device_id", "1")] ∧
      opts2.to_ffi.1.Nodup :=
  options_set_last_write_wins ⟨[("arena_extend_strategy", "kNextPowerOfTwo")]⟩
    "device_id" "0" "1" (by decide) (by decide) (by decide) (by decide)

/-- C9: `fail_silently` and `set_error_on_failure` (the Rust builder method
`error_on_failure`) each set only the `error_on_failure` flag — to `false`
and `true` respectively — leaving the wrapped provider untouched; applied in
sequence the last call wins; and a freshly constructed wrapper carries
`error_on_failure = false`. -/
theorem dispatch_builder_frame (ep : InnerProvider) (d : ExecutionProviderDispatch) :
    (ExecutionProviderDispatch.new ep).error_on_failure = false ∧
    (ExecutionProviderDispatch.new ep).inner = ep ∧
    d.fail_silently.error_on_failure = false ∧
    d.fail_silently.inner = d.inner ∧
    d.set_error_on_failure.error_on_failure = true ∧
    d.set_error_on_failure.inner = d.inner ∧
    d.fail_silently.set_error_on_failure.error_on_failure = true ∧
    d.fail_silently.set_error_on_failure.inner = d.inner ∧
    d.set_error_on_failure.fail_silently.error_on_failure = false ∧
    d.set_error_on_failure.fail_silently.inner = d.inner :=
  ⟨rfl, rfl, rfl, rfl, rfl, rfl, rfl, rfl, rfl, rfl⟩

end Ort
